import Mathlib

/-!
# scribe: the root command of `cmd/root.go`

A shallow embedding of `rootCmd.Run` (cmd/root.go, lines 37-123).  The Go
closure is a straight-line script over the operating system: it removes a
file, runs at most one external program, opens a file, sends one HTTP
request and prints the answer.  The embedding passes the observable world
explicitly (file system, chronological trace, standard output) and takes
everything the program cannot decide itself from an environment `Env`
(which file a path names, which removals and reads fail, what the external
programs do, what the service answers).

Go strings and byte slices are modelled by Lean strings.
-/

namespace Scribe

/-! ## File system -/

/-- File system: an association list from file (keyed by its resolved name)
to contents.  The first binding of a key is the file found there.  Which file
a path spelling names, and whether a file can be removed, is decided by the
environment (`Env.resolve`, `Env.removeErr`). -/
abbrev FS := List (String × String)

/-- Contents of the file with key `path`, when there is one. -/
def FS.read (fs : FS) (path : String) : Option String :=
  match fs with
  | [] => none
  | (p, c) :: rest => if p = path then some c else FS.read rest path

/-- The file system without any file with key `path`. -/
def FS.erase (fs : FS) (path : String) : FS :=
  fs.filter (fun e => e.1 != path)

/-- The file system with `contents` stored at `path`. -/
def FS.write (fs : FS) (path contents : String) : FS :=
  (path, contents) :: FS.erase fs path

end Scribe

/-! ## Go library functions used by `Run` -/

namespace strings

/-- Go `strings.Contains(s, substr)`: `substr` occurs within `s`. -/
def Contains (s substr : String) : Bool :=
  decide (substr.data <:+: s.data)

/-- Go `strings.HasSuffix(s, suffix)`:
`len(s) >= len(suffix) && s[len(s)-len(suffix):] == suffix`. -/
def HasSuffix (s suffix : String) : Bool :=
  decide (suffix.data.length ≤ s.data.length) &&
    decide (s.data.drop (s.data.length - suffix.data.length) = suffix.data)

/-- Go `strings.ContainsAny(s, chars)`: some character of `chars` is in `s`. -/
def ContainsAny (s chars : String) : Bool :=
  s.data.any (fun c => decide (c ∈ chars.data))

end strings

namespace Scribe

/-- Go `error` value: `none` is `nil`, `some msg` an error with that text. -/
abbrev GoError := Option String

/-- One part of a multipart form, as `multipart.Writer.CreateFormFile`
creates it. -/
structure Part where
  fieldname : String
  filename : String
  contentType : String
  content : String
  deriving DecidableEq, Repr

/-- State of a `multipart.Writer` over a `bytes.Buffer`: the boundary drawn at
`NewWriter`, the parts written so far, and whether `Close` wrote the final
boundary. -/
structure Writer where
  boundary : String
  parts : List Part
  closed : Bool
  deriving DecidableEq, Repr

/-- Go `multipart.NewWriter`: fresh writer with the given random boundary. -/
def Writer.new (boundary : String) : Writer :=
  { boundary := boundary, parts := [], closed := false }

/-- Go `(*Writer).CreateFormFile(fieldname, filename)`: starts a part with
content type `application/octet-stream`.  The only error it can return is a
write error of the underlying writer, and a `bytes.Buffer` has none. -/
def Writer.CreateFormFile (w : Writer) (fieldname filename : String) :
    Except String Writer :=
  .ok { w with parts := w.parts ++
    [{ fieldname := fieldname, filename := filename,
       contentType := "application/octet-stream", content := "" }] }

/-- Writing `data` to the form file returned by `CreateFormFile`: the bytes go
to the part created last. -/
def Writer.writeLast (w : Writer) (data : String) : Writer :=
  match w.parts.reverse with
  | [] => w
  | p :: before =>
    { w with parts := before.reverse ++ [{ p with content := p.content ++ data }] }

/-- Go `(*Writer).Close`. -/
def Writer.Close (w : Writer) : Writer := { w with closed := true }

/-- Go `(*Writer).FormDataContentType`: the boundary is quoted when it holds a
character of `()<>@,;:\"/[]?= `. -/
def Writer.FormDataContentType (w : Writer) : String :=
  let b := if strings.ContainsAny w.boundary "()<>@,;:\\\"/[]?= "
    then "\"" ++ w.boundary ++ "\"" else w.boundary
  "multipart/form-data; boundary=" ++ b

/-- An `http.Request` as `Run` builds it. -/
structure Request where
  method : String
  url : String
  header : List (String × String)
  body : Writer
  deriving DecidableEq, Repr

/-- Go `Header.Set(key, value)`. -/
def Request.setHeader (r : Request) (key value : String) : Request :=
  { r with header := (key, value) :: r.header.filter (fun h => decide (h.1 ≠ key)) }

/-- Go `Header.Get(key)`. -/
def Request.getHeader (r : Request) (key : String) : Option String :=
  (r.header.find? (fun h => decide (h.1 = key))).map Prod.snd

/-- An `http.Response`: status code, the body the service sent, and the error
`io.ReadAll` meets while reading it (`none` when the read completes). -/
structure Response where
  statusCode : Nat
  body : String
  readErr : GoError
  deriving DecidableEq, Repr

/-- Result of running an external command: the file system it leaves and the
error `(*exec.Cmd).Run` returns (nonzero exit or spawn failure). -/
structure CmdResult where
  fs : FS
  err : GoError
  deriving DecidableEq, Repr

/-- What the program cannot decide itself. -/
structure Env where
  /-- The file a path spelling names (working directory, `.` components, links):
  `tmp.mp3` and `./tmp.mp3` resolve to one key. -/
  resolve : String → String
  /-- Error of `os.Remove` on a path that exists (non-empty directory,
  unwritable parent directory and the like); the path then stays in place. -/
  removeErr : FS → String → GoError
  /-- Outcome of `exec.Command(name, args...).Run()` on a file system. -/
  cmdRun : String → List String → FS → CmdResult
  /-- Boundary drawn by `multipart.NewWriter`. -/
  boundary : String
  /-- Error of `os.Open` on a file that exists (permissions and the like). -/
  openErr : String → GoError
  /-- Error of `io.Copy` while reading the opened file. -/
  copyErr : String → GoError
  /-- Error of `http.NewRequest` for a method and URL (Go returns none for the
  constants `Run` passes; the environment may be stricter). -/
  newRequestErr : String → String → GoError
  /-- Outcome of `client.Do(req)`: a transport error or a response. -/
  clientDo : Request → Except String Response

/-! ## Observable world -/

/-- Effects of `Run`, in the vocabulary of the source. -/
inductive Event where
  | remove (path : String)
  | exec (name : String) (args : List String)
  | createFormFile (fieldname filename : String)
  | osOpen (path : String)
  | httpDo (req : Request)
  | print (s : String)
  | close (what : String)
  | logFatal (msg : String)
  deriving DecidableEq, Repr

/-- A trace entry: the event and the file system it happened on. -/
structure Step where
  pre : FS
  event : Event
  deriving DecidableEq, Repr

/-- The world `Run` acts on. -/
structure World where
  fs : FS
  trace : List Step
  stdout : String
  deriving DecidableEq, Repr

/-- How the process ended. -/
structure Outcome where
  world : World
  exitCode : Nat
  deriving DecidableEq, Repr

/-- World at process start. -/
def World.init (fs : FS) : World := { fs := fs, trace := [], stdout := "" }

/-- Append an event to the trace. -/
def World.log (w : World) (e : Event) : World :=
  { w with trace := w.trace ++ [{ pre := w.fs, event := e }] }

/-- Go `os.Remove(path)` on a file system: the file system it leaves and the
error it returns.  Nothing is removed when the path does not exist or when the
environment refuses the removal. -/
def osRemoveFS (env : Env) (fs : FS) (path : String) : FS × GoError :=
  match FS.read fs (env.resolve path) with
  | none => (fs, some ("remove " ++ path ++ ": no such file or directory"))
  | some _ =>
    match env.removeErr fs path with
    | some e => (fs, some e)
    | none => (FS.erase fs (env.resolve path), none)

/-- Go `os.Remove(path)` in the world. -/
def osRemove (env : Env) (w : World) (path : String) : World × GoError :=
  ({ w.log (.remove path) with fs := (osRemoveFS env w.fs path).1 },
   (osRemoveFS env w.fs path).2)

/-- Go `exec.Command(name, args...).Run()`. -/
def cmdRun (env : Env) (w : World) (name : String) (args : List String) :
    World × GoError :=
  let r := env.cmdRun name args w.fs
  ({ w.log (.exec name args) with fs := r.fs }, r.err)

/-- Go `os.Open(path)`: fails when there is no file at `path`, or when the
environment refuses the file; otherwise yields the contents to be read. -/
def osOpen (env : Env) (fs : FS) (path : String) : Except String String :=
  match FS.read fs (env.resolve path) with
  | none => .error ("open " ++ path ++ ": no such file or directory")
  | some c =>
    match env.openErr path with
    | some e => .error e
    | none => .ok c

/-- Go `fmt.Print` of string operands: the operands one after the other, no
separator between strings and no newline at the end. -/
def fmtPrint (w : World) (operands : List String) : World :=
  let s := String.join operands
  { w.log (.print s) with stdout := w.stdout ++ s }

/-- Go `log.Fatalf`/`log.Fatal`: the message goes to the log (standard error)
and the process exits with status 1; deferred calls do not run. -/
def logFatal (w : World) (msg : String) : Outcome :=
  { world := w.log (.logFatal msg), exitCode := 1 }

/-- The constant `asrServerUrl` of `Run`. -/
def asrServerUrl : String := "http://0.0.0.0:9000"

/-- Lines 45-64 of `rootCmd.Run`: choose how the audio is obtained and obtain
it.  Returns the final value of the variable `audioFilePath`; `throw` is the
process exit of `log.Fatalf`. -/
def acquire (env : Env) (filePath : String) (w0 : World) :
    Except Outcome (String × World) := do
  let mut audioFilePath := "tmp.mp3"
  let mut w := w0
  if strings.Contains filePath "youtube.com" then
    -- extract audio file
    let (w1, err) := cmdRun env w "yt-dlp"
      ["--extract-audio", "--audio-format", "mp3", "--audio-quality", "10",
       "-o", audioFilePath, filePath]
    w := w1
    if let some e := err then
      throw (logFatal w ("Command execution failed with error: " ++ e))
  else if strings.HasSuffix filePath ".mp3" then
    -- feed audio file in
    audioFilePath := filePath
  else
    let (w1, err) := cmdRun env w "ffmpeg"
      ["-i", filePath, "-vn", "-acodec", "libmp3lame", audioFilePath]
    w := w1
    if let some e := err then
      throw (logFatal w ("Command execution failed with error: " ++ e))
  return (audioFilePath, w)

/-- Lines 66-118 of `rootCmd.Run`: build the multipart form around the audio
file, POST it, read the whole response body.  Returns `bodyBytes`. -/
def upload (env : Env) (audioFilePath : String) (w0 : World) :
    Except Outcome (String × World) := do
  let mut w := w0
  let mut writer := Writer.new env.boundary
  w := w.log (.createFormFile "audio_file" audioFilePath)
  match writer.CreateFormFile "audio_file" audioFilePath with
  | .error e => throw (logFatal w ("Create form file failed: " ++ e ++ "\n"))
  | .ok wr => writer := wr
  -- Open the file
  w := w.log (.osOpen audioFilePath)
  let contents ← match osOpen env w.fs audioFilePath with
    | .error e => throw (logFatal w ("Error opening file: " ++ e))
    | .ok c => pure c
  if let some e := env.copyErr audioFilePath then
    throw (logFatal w ("Error copying data to form file: " ++ e))
  writer := writer.writeLast contents
  -- Close multipart writer.
  writer := writer.Close
  -- Create a New Request
  if let some e := env.newRequestErr "POST" (asrServerUrl ++ "/asr") then
    throw (logFatal w e)
  let mut req : Request :=
    { method := "POST", url := asrServerUrl ++ "/asr", header := [], body := writer }
  req := req.setHeader "Content-Type" writer.FormDataContentType
  -- Do the request
  w := w.log (.httpDo req)
  let res ← match env.clientDo req with
    | .error e => throw (logFatal w e)
    | .ok r => pure r
  if let some e := res.readErr then
    throw (logFatal w e)
  return (res.body, w)

/-- Body of `rootCmd.Run` (cmd/root.go 37-123). -/
def RunM (env : Env) (args : List String) (fs : FS) : Except Outcome Outcome := do
  match args with
  | [] =>
    -- args[0] on an empty slice: run-time panic, exit status 2
    throw { world := World.init fs, exitCode := 2 }
  | filePath :: _ =>
    -- cleanup tmp file (the error of os.Remove is discarded)
    let mut w := (osRemove env (World.init fs) "tmp.mp3").1
    let (audioFilePath, w1) ← acquire env filePath w
    -- call WhisperASR
    let (bodyBytes, w2) ← upload env audioFilePath w1
    let bodyString := bodyBytes
    w := fmtPrint w2 [bodyString]
    -- cleanup tmp file (the error of os.Remove is discarded)
    w := (osRemove env w audioFilePath).1
    -- deferred calls, last registered first
    w := w.log (.close "res.Body")
    w := w.log (.close audioFilePath)
    return { world := w, exitCode := 0 }

/-- The run of the root command on the command-line arguments `args`, started
on the file system `fs`. -/
def Run (env : Env) (args : List String) (fs : FS) : Outcome :=
  match RunM env args fs with
  | .ok o => o
  | .error o => o

/-! ## Observations on an outcome -/

/-- External programs invoked along a trace, in order, each with its
argument list. -/
def execsOf (t : List Step) : List (String × List String) :=
  t.filterMap fun s =>
    match s.event with
    | .exec n a => some (n, a)
    | _ => none

/-- HTTP requests issued along a trace, in order. -/
def requestsOf (t : List Step) : List Request :=
  t.filterMap fun s =>
    match s.event with
    | .httpDo r => some r
    | _ => none

/-- Paths passed to `os.Open` along a trace, in order. -/
def opensOf (t : List Step) : List String :=
  t.filterMap fun s =>
    match s.event with
    | .osOpen p => some p
    | _ => none

/-- Paths passed to `os.Remove` along a trace, in order. -/
def removesOf (t : List Step) : List String :=
  t.filterMap fun s =>
    match s.event with
    | .remove p => some p
    | _ => none

/-- Strings passed to `fmt.Print` along a trace, in order. -/
def printsOf (t : List Step) : List String :=
  t.filterMap fun s =>
    match s.event with
    | .print x => some x
    | _ => none

/-- File names for which a multipart form file was created, in order. -/
def formFilesOf (t : List Step) : List String :=
  t.filterMap fun s =>
    match s.event with
    | .createFormFile _ f => some f
    | _ => none

/-- Messages passed to `log.Fatal`/`log.Fatalf` along a trace. -/
def fatalsOf (t : List Step) : List String :=
  t.filterMap fun s =>
    match s.event with
    | .logFatal m => some m
    | _ => none

/-- External programs the run invoked. -/
def Outcome.execs (o : Outcome) : List (String × List String) := execsOf o.world.trace

/-- HTTP requests the run issued. -/
def Outcome.requests (o : Outcome) : List Request := requestsOf o.world.trace

/-- Paths the run opened. -/
def Outcome.opens (o : Outcome) : List String := opensOf o.world.trace

/-- Paths the run removed. -/
def Outcome.removes (o : Outcome) : List String := removesOf o.world.trace

/-- Strings the run printed. -/
def Outcome.prints (o : Outcome) : List String := printsOf o.world.trace

/-- Form files the run created. -/
def Outcome.formFiles (o : Outcome) : List String := formFilesOf o.world.trace

/-- Fatal messages the run logged. -/
def Outcome.fatals (o : Outcome) : List String := fatalsOf o.world.trace

/-! ## Derived forms used in the proofs -/

/-- The multipart form `upload` has built when it closes the writer: one file
part for the audio file `a` with contents `c`. -/
def formBody (env : Env) (a c : String) : Writer :=
  { boundary := env.boundary,
    parts := [{ fieldname := "audio_file", filename := a,
                contentType := "application/octet-stream", content := c }],
    closed := true }

/-- The request `upload` sends for the audio file `a` with contents `c`. -/
def formRequest (env : Env) (a c : String) : Request :=
  { method := "POST", url := "http://0.0.0.0:9000/asr",
    header := [("Content-Type", (formBody env a c).FormDataContentType)],
    body := formBody env a c }

/-- The world after the initial `os.Remove("tmp.mp3")`. -/
def atStart (env : Env) (fs : FS) : World := (osRemove env (World.init fs) "tmp.mp3").1

/-- Argument list of the `yt-dlp` invocation. -/
def ytdlpArgs (filePath : String) : List String :=
  ["--extract-audio", "--audio-format", "mp3", "--audio-quality", "10", "-o", "tmp.mp3", filePath]

/-- Argument list of the `ffmpeg` invocation. -/
def ffmpegArgs (filePath : String) : List String :=
  ["-i", filePath, "-vn", "-acodec", "libmp3lame", "tmp.mp3"]

/-- The world in which `upload` opens the audio file. -/
def atOpen (w : World) (a : String) : World :=
  (w.log (.createFormFile "audio_file" a)).log (.osOpen a)

/-- The world in which `upload` has sent its request. -/
def atRequest (env : Env) (w : World) (a c : String) : World :=
  (atOpen w a).log (.httpDo (formRequest env a c))

/-- The world of a run that reaches the end of `Run`. -/
def atExit (env : Env) (w : World) (a c body : String) : World :=
  (((osRemove env (fmtPrint (atRequest env w a c) [body]) a).1.log (.close "res.Body")).log
    (.close a))

/-- What `Run` does once `audioFilePath` is settled (lines 66-123): upload,
print, final removal, deferred closes. -/
def afterAcquire (env : Env) (audioFilePath : String) (w : World) : Outcome :=
  match upload env audioFilePath w with
  | .error o => o
  | .ok (bodyBytes, w2) =>
    { world := ((osRemove env (fmtPrint w2 [bodyBytes]) audioFilePath).1.log
        (.close "res.Body")).log (.close audioFilePath),
      exitCode := 0 }

/-! ## Sample environments -/

/-- An environment where everything works: paths name themselves, files can
be removed and read, the utilities write `tmp.mp3`, and the service answers
200 with a transcript. -/
def okEnv : Env where
  resolve := fun p => p
  removeErr := fun _ _ => none
  cmdRun := fun _ _ fs => { fs := FS.write fs "tmp.mp3" "mp3-bytes", err := none }
  boundary := "b0"
  openErr := fun _ => none
  copyErr := fun _ => none
  newRequestErr := fun _ _ => none
  clientDo := fun _ => .ok { statusCode := 200, body := "hello world", readErr := none }

/-- As `okEnv`, but the utilities exit nonzero after writing part of the
output. -/
def failingCmdEnv : Env :=
  { okEnv with
    cmdRun := fun _ _ fs =>
      { fs := FS.write fs "tmp.mp3" "half-written", err := some "exit status 1" } }

/-- As `okEnv`, but in a working directory without write permission: nothing
can be removed, and the utilities fail without writing anything. -/
def stuckEnv : Env :=
  { okEnv with
    removeErr := fun _ _ => some "permission denied"
    cmdRun := fun _ _ fs => { fs := fs, err := some "exit status 1" } }

/-- An environment whose service answers 500 with an error body. -/
def errorStatusEnv : Env :=
  { okEnv with
    clientDo := fun _ =>
      .ok { statusCode := 500, body := "Internal Server Error", readErr := none } }

/-! ## File-system facts -/

theorem FS.read_erase (fs : FS) (q p : String) :
    FS.read (FS.erase fs q) p = if p = q then none else FS.read fs p := by
  induction fs with
  | nil => simp [FS.erase, FS.read]
  | cons e rest ih =>
    obtain ⟨k, v⟩ := e
    have hcons : FS.erase ((k, v) :: rest) q =
        if k = q then FS.erase rest q else (k, v) :: FS.erase rest q := by
      by_cases hk : k = q <;> simp [FS.erase, List.filter_cons, hk]
    rw [hcons]
    by_cases hk : k = q
    · rw [if_pos hk, ih]
      by_cases hp : p = q
      · simp [hp]
      · have hkp : ¬ k = p := fun h => hp (h ▸ hk)
        simp [hp, FS.read, hkp]
    · rw [if_neg hk]
      by_cases hp : p = q
      · subst hp
        simp [FS.read, hk, ih]
      · simp [FS.read, ih, hp]

theorem FS.read_erase_self (fs : FS) (p : String) : FS.read (FS.erase fs p) p = none := by
  simp [FS.read_erase]

/-- A removal the environment does not refuse leaves no file at the path. -/
theorem osRemoveFS_absent (env : Env) (fs : FS) (p : String)
    (h : env.removeErr fs p = none) :
    FS.read (osRemoveFS env fs p).1 (env.resolve p) = none := by
  unfold osRemoveFS
  cases hr : FS.read fs (env.resolve p) with
  | none => simpa using hr
  | some c => simp [h, FS.read_erase_self]

/-- A removal creates no file: what is read afterwards was there before. -/
theorem osRemoveFS_read (env : Env) (fs : FS) (p k c : String)
    (h : FS.read (osRemoveFS env fs p).1 k = some c) : FS.read fs k = some c := by
  unfold osRemoveFS at h
  cases hr : FS.read fs (env.resolve p) with
  | none => simpa [hr] using h
  | some c0 =>
    cases he : env.removeErr fs p with
    | some e => simpa [hr, he] using h
    | none =>
      simp only [hr, he, FS.read_erase] at h
      by_cases hk : k = env.resolve p
      · simp [hk] at h
      · simpa [hk] using h

/-- A removal the environment does not refuse empties the path and nothing else. -/
theorem osRemoveFS_ok (env : Env) (fs : FS) (p : String) (h : env.removeErr fs p = none) :
    (osRemoveFS env fs p).1 = FS.erase fs (env.resolve p) := by
  unfold osRemoveFS
  cases hr : FS.read fs (env.resolve p) with
  | none =>
    simp only []
    have : ∀ (l : FS), FS.read l (env.resolve p) = none → FS.erase l (env.resolve p) = l := by
      intro l
      induction l with
      | nil => intro _; rfl
      | cons e rest ih =>
        obtain ⟨k, v⟩ := e
        intro hl
        by_cases hk : k = env.resolve p
        · simp [FS.read, hk] at hl
        · simp only [FS.read, hk, if_false] at hl
          have := ih hl
          simp only [FS.erase] at this ⊢
          simp [List.filter_cons, hk, this]
    exact (this fs hr).symm
  | some c => simp [h]

/-! ## Normal forms of the stages -/

theorem writer_chain (env : Env) (a c : String) :
    (Writer.writeLast ⟨env.boundary, [⟨"audio_file", a, "application/octet-stream", ""⟩], false⟩
      c).Close = formBody env a c := by
  simp [Writer.writeLast, Writer.Close, formBody]

theorem upload_eq (env : Env) (a : String) (w : World) :
    upload env a w =
      match osOpen env w.fs a with
      | .error e => .error (logFatal (atOpen w a) ("Error opening file: " ++ e))
      | .ok c =>
        match env.copyErr a with
        | some e => .error (logFatal (atOpen w a) ("Error copying data to form file: " ++ e))
        | none =>
          match env.newRequestErr "POST" "http://0.0.0.0:9000/asr" with
          | some e => .error (logFatal (atOpen w a) e)
          | none =>
            match env.clientDo (formRequest env a c) with
            | .error e => .error (logFatal (atRequest env w a c) e)
            | .ok r =>
              match r.readErr with
              | some e => .error (logFatal (atRequest env w a c) e)
              | none => .ok (r.body, atRequest env w a c) := by
  have hurl : asrServerUrl ++ "/asr" = "http://0.0.0.0:9000/asr" := by decide
  simp only [upload, Writer.CreateFormFile, Writer.new, bind, Except.bind, pure, Except.pure,
    throw, throwThe, MonadExceptOf.throw, List.nil_append, writer_chain, hurl]
  have hreq : ∀ c, Request.setHeader
      { method := "POST", url := "http://0.0.0.0:9000/asr", header := [],
        body := formBody env a c }
      "Content-Type" (formBody env a c).FormDataContentType = formRequest env a c := by
    intro c; simp [Request.setHeader, formRequest]
  simp only [hreq]
  have hfs : ((w.log (.createFormFile "audio_file" a)).log (.osOpen a)).fs = w.fs := rfl
  simp only [hfs]
  cases osOpen env w.fs a with
  | error e => rfl
  | ok c =>
    simp only []
    cases env.copyErr a with
    | some e => rfl
    | none =>
      simp only []
      cases env.newRequestErr "POST" "http://0.0.0.0:9000/asr" with
      | some e => rfl
      | none =>
        simp only []
        cases env.clientDo (formRequest env a c) with
        | error e => rfl
        | ok r =>
          simp only []
          cases r.readErr with
          | some e => rfl
          | none => rfl

theorem afterAcquire_eq (env : Env) (a : String) (w : World) :
    afterAcquire env a w =
      match osOpen env w.fs a with
      | .error e => logFatal (atOpen w a) ("Error opening file: " ++ e)
      | .ok c =>
        match env.copyErr a with
        | some e => logFatal (atOpen w a) ("Error copying data to form file: " ++ e)
        | none =>
          match env.newRequestErr "POST" "http://0.0.0.0:9000/asr" with
          | some e => logFatal (atOpen w a) e
          | none =>
            match env.clientDo (formRequest env a c) with
            | .error e => logFatal (atRequest env w a c) e
            | .ok r =>
              match r.readErr with
              | some e => logFatal (atRequest env w a c) e
              | none => { world := atExit env w a c r.body, exitCode := 0 } := by
  simp only [afterAcquire, upload_eq]
  cases osOpen env w.fs a with
  | error e => rfl
  | ok c =>
    simp only []
    cases env.copyErr a with
    | some e => rfl
    | none =>
      simp only []
      cases env.newRequestErr "POST" "http://0.0.0.0:9000/asr" with
      | some e => rfl
      | none =>
        simp only []
        cases env.clientDo (formRequest env a c) with
        | error e => rfl
        | ok r =>
          simp only []
          cases r.readErr with
          | some e => rfl
          | none => rfl

theorem Run_eq (env : Env) (filePath : String) (rest : List String) (fs : FS) :
    Run env (filePath :: rest) fs =
      if strings.Contains filePath "youtube.com" = true then
        match (cmdRun env (atStart env fs) "yt-dlp" (ytdlpArgs filePath)).2 with
        | some e =>
          logFatal (cmdRun env (atStart env fs) "yt-dlp" (ytdlpArgs filePath)).1
            ("Command execution failed with error: " ++ e)
        | none =>
          afterAcquire env "tmp.mp3" (cmdRun env (atStart env fs) "yt-dlp" (ytdlpArgs filePath)).1
      else if strings.HasSuffix filePath ".mp3" = true then
        afterAcquire env filePath (atStart env fs)
      else
        match (cmdRun env (atStart env fs) "ffmpeg" (ffmpegArgs filePath)).2 with
        | some e =>
          logFatal (cmdRun env (atStart env fs) "ffmpeg" (ffmpegArgs filePath)).1
            ("Command execution failed with error: " ++ e)
        | none =>
          afterAcquire env "tmp.mp3" (cmdRun env (atStart env fs) "ffmpeg" (ffmpegArgs filePath)).1 := by
  simp only [Run, RunM, acquire, afterAcquire, atStart, ytdlpArgs, ffmpegArgs, bind, Except.bind,
    pure, Except.pure, throw, throwThe, MonadExceptOf.throw]
  by_cases h1 : strings.Contains filePath "youtube.com" = true
  · simp only [h1, if_true]
    cases (cmdRun env (osRemove env (World.init fs) "tmp.mp3").1 "yt-dlp"
      ["--extract-audio", "--audio-format", "mp3", "--audio-quality", "10", "-o", "tmp.mp3",
        filePath]).2 with
    | some e => rfl
    | none =>
      simp only []
      cases upload env "tmp.mp3" _ with
      | error o => rfl
      | ok v => rfl
  · simp only [h1, Bool.false_eq_true, if_false]
    by_cases h2 : strings.HasSuffix filePath ".mp3" = true
    · simp only [h2, if_true]
      cases upload env filePath _ with
      | error o => rfl
      | ok v => rfl
    · simp only [h2, Bool.false_eq_true, if_false]
      cases (cmdRun env (osRemove env (World.init fs) "tmp.mp3").1 "ffmpeg"
        ["-i", filePath, "-vn", "-acodec", "libmp3lame", "tmp.mp3"]).2 with
      | some e => rfl
      | none =>
        simp only []
        cases upload env "tmp.mp3" _ with
        | error o => rfl
        | ok v => rfl


/-! ## Facts shared by the theorems below -/

theorem osOpen_ok (env : Env) (fs : FS) (a c : String) (h : osOpen env fs a = .ok c) :
    FS.read fs (env.resolve a) = some c := by
  unfold osOpen at h
  cases hr : FS.read fs (env.resolve a) with
  | none => simp [hr] at h
  | some c0 =>
    cases he : env.openErr a with
    | some e => simp [hr, he] at h
    | none => simp [hr, he] at h; rw [h]

theorem afterAcquire_execs (env : Env) (a : String) (w : World) :
    (afterAcquire env a w).execs = execsOf w.trace := by
  rw [afterAcquire_eq]
  repeat' split
  all_goals simp [Outcome.execs, execsOf, logFatal, atOpen, atRequest, atExit, World.log,
    osRemove, fmtPrint]

theorem afterAcquire_opens (env : Env) (a : String) (w : World) :
    (afterAcquire env a w).opens = opensOf w.trace ++ [a] := by
  rw [afterAcquire_eq]
  repeat' split
  all_goals simp [Outcome.opens, opensOf, logFatal, atOpen, atRequest, atExit, World.log,
    osRemove, fmtPrint]

theorem afterAcquire_formFiles (env : Env) (a : String) (w : World) :
    (afterAcquire env a w).formFiles = formFilesOf w.trace ++ [a] := by
  rw [afterAcquire_eq]
  repeat' split
  all_goals simp [Outcome.formFiles, formFilesOf, logFatal, atOpen, atRequest, atExit, World.log,
    osRemove, fmtPrint]

/-- Requests of the upload stage: none, or the one form request built from the
contents read from the audio file. -/
theorem afterAcquire_requests (env : Env) (a : String) (w : World) :
    (afterAcquire env a w).requests = requestsOf w.trace ∨
      ∃ c, osOpen env w.fs a = .ok c ∧ env.copyErr a = none ∧
        env.newRequestErr "POST" "http://0.0.0.0:9000/asr" = none ∧
        (afterAcquire env a w).requests = requestsOf w.trace ++ [formRequest env a c] := by
  rw [afterAcquire_eq]
  cases h1 : osOpen env w.fs a with
  | error e =>
    left; simp [Outcome.requests, requestsOf, logFatal, atOpen, World.log]
  | ok c =>
    cases h2 : env.copyErr a with
    | some e => left; simp [Outcome.requests, requestsOf, logFatal, atOpen, World.log]
    | none =>
      cases h3 : env.newRequestErr "POST" "http://0.0.0.0:9000/asr" with
      | some e => left; simp [Outcome.requests, requestsOf, logFatal, atOpen, World.log]
      | none =>
        right
        refine ⟨c, rfl, rfl, rfl, ?_⟩
        simp only []
        repeat' split
        all_goals simp [Outcome.requests, requestsOf, logFatal, atOpen, atRequest, atExit,
          World.log, osRemove, fmtPrint]

/-- When every step up to the request works, exactly the form request is sent. -/
theorem afterAcquire_requests_ok (env : Env) (a c : String) (w : World)
    (h1 : osOpen env w.fs a = .ok c) (h2 : env.copyErr a = none)
    (h3 : env.newRequestErr "POST" "http://0.0.0.0:9000/asr" = none) :
    (afterAcquire env a w).requests = requestsOf w.trace ++ [formRequest env a c] := by
  rcases afterAcquire_requests env a w with h | ⟨c2, h1b, _, _, h⟩
  · exfalso
    rw [afterAcquire_eq, h1, h2, h3] at h
    simp only [] at h
    revert h
    repeat' split
    all_goals simp [Outcome.requests, requestsOf, logFatal, atOpen, atRequest, atExit,
      World.log, osRemove, fmtPrint]
  · rw [h1] at h1b
    cases h1b
    exact h

theorem atStart_fs (env : Env) (fs : FS) :
    (atStart env fs).fs = (osRemoveFS env fs "tmp.mp3").1 := rfl

theorem atStart_trace (env : Env) (fs : FS) :
    (atStart env fs).trace = [{ pre := fs, event := .remove "tmp.mp3" }] := rfl

theorem atStart_stdout (env : Env) (fs : FS) : (atStart env fs).stdout = "" := rfl

theorem cmdRun_fs (env : Env) (w : World) (n : String) (a : List String) :
    (cmdRun env w n a).1.fs = (env.cmdRun n a w.fs).fs := rfl

theorem cmdRun_trace (env : Env) (w : World) (n : String) (a : List String) :
    (cmdRun env w n a).1.trace = w.trace ++ [{ pre := w.fs, event := .exec n a }] := rfl

theorem cmdRun_stdout (env : Env) (w : World) (n : String) (a : List String) :
    (cmdRun env w n a).1.stdout = w.stdout := rfl

theorem cmdRun_err (env : Env) (w : World) (n : String) (a : List String) :
    (cmdRun env w n a).2 = (env.cmdRun n a w.fs).err := rfl


/-- Each failure the upload stage can meet ends it with a fatal message. -/
theorem afterAcquire_failure_is_fatal (env : Env) (a : String) (w : World)
    (h : (∃ e, osOpen env w.fs a = .error e) ∨ env.copyErr a ≠ none ∨
      env.newRequestErr "POST" "http://0.0.0.0:9000/asr" ≠ none ∨
      (∃ c e, osOpen env w.fs a = .ok c ∧ env.clientDo (formRequest env a c) = .error e) ∨
      (∃ c r, osOpen env w.fs a = .ok c ∧ env.clientDo (formRequest env a c) = .ok r ∧
        r.readErr ≠ none)) :
    (afterAcquire env a w).fatals ≠ fatalsOf w.trace := by
  rw [afterAcquire_eq]
  revert h
  repeat' split
  all_goals simp_all [Outcome.fatals, fatalsOf, logFatal, atOpen, atRequest, atExit, World.log,
    osRemove, fmtPrint]

/-- A run logs a fatal message exactly when it ends with a nonzero status. -/
theorem Run_fatal_iff_exit (env : Env) (filePath : String) (fs : FS) :
    (Run env [filePath] fs).fatals ≠ [] ↔ (Run env [filePath] fs).exitCode ≠ 0 := by
  rw [Run_eq]
  by_cases h1 : strings.Contains filePath "youtube.com" = true
  · simp only [h1, if_true, afterAcquire_eq]
    repeat' split
    all_goals simp [Outcome.fatals, fatalsOf, logFatal, atOpen, atRequest, atExit, World.log,
      osRemove, fmtPrint, atStart, World.init, cmdRun]
  · simp only [h1, Bool.false_eq_true, if_false]
    by_cases h2 : strings.HasSuffix filePath ".mp3" = true
    · simp only [h2, if_true, afterAcquire_eq]
      repeat' split
      all_goals simp [Outcome.fatals, fatalsOf, logFatal, atOpen, atRequest, atExit, World.log,
        osRemove, fmtPrint, atStart, World.init, cmdRun]
    · simp only [h2, Bool.false_eq_true, if_false, afterAcquire_eq]
      repeat' split
      all_goals simp [Outcome.fatals, fatalsOf, logFatal, atOpen, atRequest, atExit, World.log,
        osRemove, fmtPrint, atStart, World.init, cmdRun]

/-! ## Input classification and acquisition -/

/-- C1. For every input that contains "youtube.com", the run invokes exactly
one external program, `yt-dlp` with the argument list `--extract-audio
--audio-format mp3 --audio-quality 10 -o tmp.mp3 input`, and never `ffmpeg`,
whatever the utility, the file system and the service do. -/
theorem download_invokes_only_ytdlp (env : Env) (filePath : String) (fs : FS)
    (h : strings.Contains filePath "youtube.com" = true) :
    (Run env [filePath] fs).execs =
        [("yt-dlp", ["--extract-audio", "--audio-format", "mp3", "--audio-quality", "10",
          "-o", "tmp.mp3", filePath])] ∧
      ∀ args, ("ffmpeg", args) ∉ (Run env [filePath] fs).execs := by
  have key : (Run env [filePath] fs).execs =
        [("yt-dlp", ["--extract-audio", "--audio-format", "mp3", "--audio-quality", "10",
          "-o", "tmp.mp3", filePath])] := by
    rw [Run_eq]
    simp only [h, if_true]
    split
    · simp [Outcome.execs, execsOf, logFatal, World.log, cmdRun_trace, atStart_trace, ytdlpArgs]
    · simp [afterAcquire_execs, execsOf, cmdRun_trace, atStart_trace, ytdlpArgs]
  rw [key]
  simp

/-- Instance of C1 on the link "https://youtube.com/watch?v=abc123". -/
theorem download_invokes_only_ytdlp_witness :
    strings.Contains "https://youtube.com/watch?v=abc123" "youtube.com" = true ∧
      (Run okEnv ["https://youtube.com/watch?v=abc123"] []).execs =
        [("yt-dlp", ["--extract-audio", "--audio-format", "mp3", "--audio-quality", "10",
          "-o", "tmp.mp3", "https://youtube.com/watch?v=abc123"])] :=
  ⟨by decide,
   (download_invokes_only_ytdlp okEnv "https://youtube.com/watch?v=abc123" [] (by decide)).1⟩

/-- C2, as stated, fails: the input "https://youtube.com/a.mp3" ends in ".mp3",
yet the run invokes `yt-dlp` and opens "tmp.mp3", not the input path. -/
theorem mp3_suffix_link_is_downloaded :
    strings.HasSuffix "https://youtube.com/a.mp3" ".mp3" = true ∧
      (Run okEnv ["https://youtube.com/a.mp3"] []).execs =
        [("yt-dlp", ["--extract-audio", "--audio-format", "mp3", "--audio-quality", "10",
          "-o", "tmp.mp3", "https://youtube.com/a.mp3"])] ∧
      (Run okEnv ["https://youtube.com/a.mp3"] []).opens = ["tmp.mp3"] := by
  decide

/-- C2, amended. For every input that does not contain "youtube.com" and ends
in ".mp3", the run invokes no external program, the one path it opens and the
one form file it creates are the input path, and every request it sends
carries, under the input path as file name, the contents of the file the
input path names. -/
theorem passthrough_uses_input_path (env : Env) (filePath : String) (fs : FS)
    (h1 : strings.Contains filePath "youtube.com" = false)
    (h2 : strings.HasSuffix filePath ".mp3" = true) :
    (Run env [filePath] fs).execs = [] ∧
      (Run env [filePath] fs).opens = [filePath] ∧
      (Run env [filePath] fs).formFiles = [filePath] ∧
      ∀ req ∈ (Run env [filePath] fs).requests, ∃ c,
        FS.read fs (env.resolve filePath) = some c ∧
        req.body.parts = [{ fieldname := "audio_file", filename := filePath,
                            contentType := "application/octet-stream", content := c }] := by
  rw [Run_eq]
  simp only [h1, h2, Bool.false_eq_true, if_false, if_true]
  refine ⟨?_, ?_, ?_, ?_⟩
  · simp [afterAcquire_execs, execsOf, atStart_trace]
  · simp [afterAcquire_opens, opensOf, atStart_trace]
  · simp [afterAcquire_formFiles, formFilesOf, atStart_trace]
  · intro req hreq
    rcases afterAcquire_requests env filePath (atStart env fs) with h | ⟨c, ho, _, _, h⟩
    · rw [h] at hreq
      simp [requestsOf, atStart_trace] at hreq
    · rw [h] at hreq
      simp [requestsOf, atStart_trace] at hreq
      have hr := osOpen_ok env _ _ _ ho
      rw [atStart_fs] at hr
      exact ⟨c, osRemoveFS_read env fs _ _ _ hr, by rw [hreq]; rfl⟩

/-- Instance of C2 (amended) on "speech.mp3". -/
theorem passthrough_uses_input_path_witness :
    strings.Contains "speech.mp3" "youtube.com" = false ∧
      strings.HasSuffix "speech.mp3" ".mp3" = true ∧
      (Run okEnv ["speech.mp3"] [("speech.mp3", "data")]).execs = [] ∧
      (Run okEnv ["speech.mp3"] [("speech.mp3", "data")]).opens = ["speech.mp3"] :=
  ⟨by decide, by decide,
   (passthrough_uses_input_path okEnv "speech.mp3" [("speech.mp3", "data")]
      (by decide) (by decide)).1,
   (passthrough_uses_input_path okEnv "speech.mp3" [("speech.mp3", "data")]
      (by decide) (by decide)).2.1⟩

/-- C3. For every input that neither contains "youtube.com" nor ends in
".mp3", the run invokes exactly one external program, `ffmpeg` with the
argument list `-i input -vn -acodec libmp3lame tmp.mp3`; the only path it
opens and the only form file it creates is "tmp.mp3" (and it does open it
when `ffmpeg` returns no error), and every request it sends carries, under
the file name "tmp.mp3", the contents `ffmpeg` left at "tmp.mp3".  `ffmpeg`
runs on the file system the initial `os.Remove` left. -/
theorem transcode_invokes_only_ffmpeg (env : Env) (filePath : String) (fs : FS)
    (h1 : strings.Contains filePath "youtube.com" = false)
    (h2 : strings.HasSuffix filePath ".mp3" = false) :
    (Run env [filePath] fs).execs =
        [("ffmpeg", ["-i", filePath, "-vn", "-acodec", "libmp3lame", "tmp.mp3"])] ∧
      (∀ q ∈ (Run env [filePath] fs).opens, q = "tmp.mp3") ∧
      (∀ q ∈ (Run env [filePath] fs).formFiles, q = "tmp.mp3") ∧
      ((env.cmdRun "ffmpeg" ["-i", filePath, "-vn", "-acodec", "libmp3lame", "tmp.mp3"]
          (osRemoveFS env fs "tmp.mp3").1).err = none →
        (Run env [filePath] fs).opens = ["tmp.mp3"]) ∧
      ∀ req ∈ (Run env [filePath] fs).requests, ∃ c,
        FS.read (env.cmdRun "ffmpeg" ["-i", filePath, "-vn", "-acodec", "libmp3lame", "tmp.mp3"]
          (osRemoveFS env fs "tmp.mp3").1).fs (env.resolve "tmp.mp3") = some c ∧
        req.body.parts = [{ fieldname := "audio_file", filename := "tmp.mp3",
                            contentType := "application/octet-stream", content := c }] := by
  rw [Run_eq]
  simp only [h1, h2, Bool.false_eq_true, if_false]
  cases he : (cmdRun env (atStart env fs) "ffmpeg" (ffmpegArgs filePath)).2 with
  | some e =>
    have he2 := he
    rw [cmdRun_err, atStart_fs] at he2
    simp only [ffmpegArgs] at he2
    simp [Outcome.execs, Outcome.opens, Outcome.formFiles, Outcome.requests, execsOf, opensOf,
      formFilesOf, requestsOf, logFatal, World.log, cmdRun_trace, atStart_trace, ffmpegArgs, he2]
  | none =>
    simp only []
    refine ⟨?_, ?_, ?_, ?_, ?_⟩
    · simp [afterAcquire_execs, execsOf, cmdRun_trace, atStart_trace, ffmpegArgs]
    · simp [afterAcquire_opens, opensOf, cmdRun_trace, atStart_trace]
    · simp [afterAcquire_formFiles, formFilesOf, cmdRun_trace, atStart_trace]
    · intro _
      simp [afterAcquire_opens, opensOf, cmdRun_trace, atStart_trace]
    · intro req hreq
      rcases afterAcquire_requests env "tmp.mp3"
        (cmdRun env (atStart env fs) "ffmpeg" (ffmpegArgs filePath)).1 with h | ⟨c, ho, _, _, h⟩
      · rw [h] at hreq
        simp [requestsOf, cmdRun_trace, atStart_trace] at hreq
      · rw [h] at hreq
        simp [requestsOf, cmdRun_trace, atStart_trace] at hreq
        have hr := osOpen_ok env _ _ _ ho
        rw [cmdRun_fs, atStart_fs] at hr
        exact ⟨c, hr, by rw [hreq]; rfl⟩

/-- Instance of C3 on "clip.mov". -/
theorem transcode_invokes_only_ffmpeg_witness :
    strings.Contains "clip.mov" "youtube.com" = false ∧
      strings.HasSuffix "clip.mov" ".mp3" = false ∧
      (Run okEnv ["clip.mov"] [("clip.mov", "video")]).execs =
        [("ffmpeg", ["-i", "clip.mov", "-vn", "-acodec", "libmp3lame", "tmp.mp3"])] :=
  ⟨by decide, by decide,
   (transcode_invokes_only_ffmpeg okEnv "clip.mov" [("clip.mov", "video")]
      (by decide) (by decide)).1⟩


/-! ## Cleanup -/

/-- C4, at the failing input. The run on "speech.mp3" with the file present and
everything working ends with status 0, and its final `os.Remove` is applied to
the input path: the file that was at "speech.mp3" is gone afterwards. -/
theorem passthrough_cleanup_removes_input :
    FS.read [("speech.mp3", "data")] "speech.mp3" = some "data" ∧
      (Run okEnv ["speech.mp3"] [("speech.mp3", "data")]).exitCode = 0 ∧
      (Run okEnv ["speech.mp3"] [("speech.mp3", "data")]).execs = [] ∧
      (Run okEnv ["speech.mp3"] [("speech.mp3", "data")]).removes = ["tmp.mp3", "speech.mp3"] ∧
      FS.read (Run okEnv ["speech.mp3"] [("speech.mp3", "data")]).world.fs "speech.mp3" = none := by
  decide

/-- Every pass-through run that ends with status 0 has applied its final
`os.Remove` to the input path, and when that removal is not refused no file is
left there. -/
theorem passthrough_success_removes_input (env : Env) (filePath : String) (fs : FS)
    (h1 : strings.Contains filePath "youtube.com" = false)
    (h2 : strings.HasSuffix filePath ".mp3" = true)
    (hexit : (Run env [filePath] fs).exitCode = 0)
    (hrem : env.removeErr (osRemoveFS env fs "tmp.mp3").1 filePath = none) :
    (Run env [filePath] fs).removes = ["tmp.mp3", filePath] ∧
      FS.read (Run env [filePath] fs).world.fs (env.resolve filePath) = none := by
  have habs := osRemoveFS_absent env _ filePath hrem
  rw [Run_eq] at hexit ⊢
  simp only [h1, h2, Bool.false_eq_true, if_false, if_true] at hexit ⊢
  rw [afterAcquire_eq] at hexit ⊢
  revert hexit
  repeat' split
  all_goals simp [Outcome.removes, removesOf, logFatal, atOpen, atRequest, atExit, World.log,
    osRemove, fmtPrint, atStart, World.init, habs]

/-- C5, as stated, fails: when the removal of "tmp.mp3" is refused (here a
directory without write permission) the file a previous run left is still
there when `ffmpeg` is invoked. -/
theorem tmp_survives_refused_removal :
    (Run stuckEnv ["clip.mov"] [("tmp.mp3", "old"), ("clip.mov", "video")]).world.trace.take 2 =
        [{ pre := [("tmp.mp3", "old"), ("clip.mov", "video")], event := .remove "tmp.mp3" },
         { pre := [("tmp.mp3", "old"), ("clip.mov", "video")],
           event := .exec "ffmpeg"
             ["-i", "clip.mov", "-vn", "-acodec", "libmp3lame", "tmp.mp3"] }] ∧
      FS.read [("tmp.mp3", "old"), ("clip.mov", "video")] (stuckEnv.resolve "tmp.mp3") =
        some "old" := by
  decide

/-- C5, amended. For every input and every initial file system, the first
event of the run is `os.Remove("tmp.mp3")`, applied to the initial file
system, so every invocation and every open comes after it, and the event that
follows happens on the file system that call left.  Whenever the removal is
not refused, that file system has no file at "tmp.mp3", and every external
program is invoked on a file system with no file at "tmp.mp3". -/
theorem tmp_removed_first (env : Env) (filePath : String) (fs : FS) :
    ∃ s rest,
      (Run env [filePath] fs).world.trace =
          { pre := fs, event := .remove "tmp.mp3" } :: s :: rest ∧
        s.pre = (osRemoveFS env fs "tmp.mp3").1 ∧
        (env.removeErr fs "tmp.mp3" = none →
          FS.read s.pre (env.resolve "tmp.mp3") = none ∧
          ∀ t ∈ (Run env [filePath] fs).world.trace, ∀ n a, t.event = .exec n a →
            FS.read t.pre (env.resolve "tmp.mp3") = none) := by
  have habs := osRemoveFS_absent env fs "tmp.mp3"
  rw [Run_eq]
  by_cases h1 : strings.Contains filePath "youtube.com" = true
  · simp only [h1, if_true, afterAcquire_eq]
    repeat' split
    all_goals simp [logFatal, atOpen, atRequest, atExit, World.log, osRemove, fmtPrint, atStart,
      World.init, cmdRun]
    all_goals exact habs
  · simp only [h1, if_false]
    by_cases h2 : strings.HasSuffix filePath ".mp3" = true
    · simp only [h2, if_true, afterAcquire_eq]
      repeat' split
      all_goals simp [logFatal, atOpen, atRequest, atExit, World.log, osRemove, fmtPrint, atStart,
        World.init, cmdRun]
      all_goals exact habs
    · simp only [h2, if_false, afterAcquire_eq]
      repeat' split
      all_goals simp [logFatal, atOpen, atRequest, atExit, World.log, osRemove, fmtPrint, atStart,
        World.init, cmdRun]
      all_goals exact habs

/-- Instance of C5 (amended) on "clip.mov", with a file left at "tmp.mp3" by
a previous run. -/
theorem tmp_removed_first_witness :
    okEnv.removeErr [("tmp.mp3", "old"), ("clip.mov", "video")] "tmp.mp3" = none ∧
      ∃ s rest,
        (Run okEnv ["clip.mov"] [("tmp.mp3", "old"), ("clip.mov", "video")]).world.trace =
          { pre := [("tmp.mp3", "old"), ("clip.mov", "video")], event := .remove "tmp.mp3" } ::
            s :: rest ∧
        FS.read s.pre "tmp.mp3" = none :=
  match tmp_removed_first okEnv "clip.mov" [("tmp.mp3", "old"), ("clip.mov", "video")] with
  | ⟨s, rest, htr, _, h⟩ => ⟨rfl, s, rest, htr, (h rfl).1⟩

/-! ## Emission and failure -/

/-- Emission after acquisition: when the request that was sent is answered and
the body is read, the run prints that body and nothing else. -/
theorem afterAcquire_emit (env : Env) (a : String) (w : World) (req : Request)
    (resp : Response) (hw : requestsOf w.trace = [])
    (hreq : req ∈ (afterAcquire env a w).requests)
    (hresp : env.clientDo req = .ok resp) (hread : resp.readErr = none) :
    (afterAcquire env a w).world.stdout = w.stdout ++ resp.body ∧
      (afterAcquire env a w).prints = printsOf w.trace ++ [resp.body] ∧
      (afterAcquire env a w).exitCode = 0 := by
  rcases afterAcquire_requests env a w with h | ⟨c, h1, h2, h3, h⟩
  · rw [h, hw] at hreq
    simp at hreq
  · rw [h, hw] at hreq
    have hr : req = formRequest env a c := by simpa using hreq
    subst hr
    rw [afterAcquire_eq, h1]
    simp only [h2, h3, hresp, hread]
    simp [Outcome.prints, printsOf, atOpen, atRequest, atExit, World.log, osRemove, fmtPrint,
      String.join]

/-- C6. Whenever the request the run sent is answered with a response `resp`
(any status code, any body) and the body is read without error, standard
output is exactly `resp.body`: one `fmt.Print` of the body, nothing before or
after it, and the run ends with status 0. -/
theorem stdout_is_response_body (env : Env) (filePath : String) (fs : FS)
    (req : Request) (resp : Response)
    (hreq : req ∈ (Run env [filePath] fs).requests)
    (hresp : env.clientDo req = .ok resp) (hread : resp.readErr = none) :
    (Run env [filePath] fs).world.stdout = resp.body ∧
      (Run env [filePath] fs).prints = [resp.body] ∧
      (Run env [filePath] fs).exitCode = 0 := by
  rw [Run_eq] at hreq ⊢
  by_cases h1 : strings.Contains filePath "youtube.com" = true
  · simp only [h1, if_true] at hreq ⊢
    cases he : (cmdRun env (atStart env fs) "yt-dlp" (ytdlpArgs filePath)).2 with
    | some e =>
      simp [he, Outcome.requests, requestsOf, logFatal, World.log, cmdRun_trace,
        atStart_trace] at hreq
    | none =>
      simp only [he] at hreq ⊢
      have := afterAcquire_emit env "tmp.mp3" _ req resp
        (by simp [requestsOf, cmdRun_trace, atStart_trace]) hreq hresp hread
      simpa [printsOf, cmdRun_trace, cmdRun_stdout, atStart_trace, atStart_stdout] using this
  · simp only [h1, if_false] at hreq ⊢
    by_cases h2 : strings.HasSuffix filePath ".mp3" = true
    · simp only [h2, if_true] at hreq ⊢
      have := afterAcquire_emit env filePath _ req resp
        (by simp [requestsOf, atStart_trace]) hreq hresp hread
      simpa [printsOf, atStart_trace, atStart_stdout] using this
    · simp only [h2, if_false] at hreq ⊢
      cases he : (cmdRun env (atStart env fs) "ffmpeg" (ffmpegArgs filePath)).2 with
      | some e =>
        simp [he, Outcome.requests, requestsOf, logFatal, World.log, cmdRun_trace,
          atStart_trace] at hreq
      | none =>
        simp only [he] at hreq ⊢
        have := afterAcquire_emit env "tmp.mp3" _ req resp
          (by simp [requestsOf, cmdRun_trace, atStart_trace]) hreq hresp hread
        simpa [printsOf, cmdRun_trace, cmdRun_stdout, atStart_trace, atStart_stdout] using this

/-- Instance of C6 on a service that answers 500: the error body is what is printed. -/
theorem stdout_is_response_body_witness :
    (Run errorStatusEnv ["speech.mp3"] [("speech.mp3", "data")]).world.stdout =
      "Internal Server Error" :=
  (stdout_is_response_body errorStatusEnv "speech.mp3" [("speech.mp3", "data")]
    (formRequest errorStatusEnv "speech.mp3" "data")
    { statusCode := 500, body := "Internal Server Error", readErr := none }
    (by decide) rfl rfl).1

/-- C7. When the input takes the download or the transcode branch and the
invoked utility (run on the file system the initial `os.Remove` left) returns
an error, the run ends with a nonzero status, sends no request, creates no
form file, opens no file and writes nothing to standard output. -/
theorem utility_failure_stops_run (env : Env) (filePath : String) (fs : FS)
    (h : (strings.Contains filePath "youtube.com" = true ∧
          (env.cmdRun "yt-dlp" ["--extract-audio", "--audio-format", "mp3", "--audio-quality",
            "10", "-o", "tmp.mp3", filePath] (osRemoveFS env fs "tmp.mp3").1).err ≠ none) ∨
         (strings.Contains filePath "youtube.com" = false ∧
          strings.HasSuffix filePath ".mp3" = false ∧
          (env.cmdRun "ffmpeg" ["-i", filePath, "-vn", "-acodec", "libmp3lame", "tmp.mp3"]
            (osRemoveFS env fs "tmp.mp3").1).err ≠ none)) :
    (Run env [filePath] fs).exitCode ≠ 0 ∧
      (Run env [filePath] fs).requests = [] ∧
      (Run env [filePath] fs).formFiles = [] ∧
      (Run env [filePath] fs).opens = [] ∧
      (Run env [filePath] fs).prints = [] ∧
      (Run env [filePath] fs).world.stdout = "" := by
  rw [Run_eq]
  rcases h with ⟨h1, he⟩ | ⟨h1, h2, he⟩
  · simp only [h1, if_true]
    cases hc : (cmdRun env (atStart env fs) "yt-dlp" (ytdlpArgs filePath)).2 with
    | none =>
      rw [cmdRun_err, atStart_fs] at hc
      exact absurd hc he
    | some e =>
      simp [Outcome.requests, Outcome.formFiles, Outcome.opens, Outcome.prints, requestsOf,
        formFilesOf, opensOf, printsOf, logFatal, World.log, cmdRun_trace, cmdRun_stdout,
        atStart_trace, atStart_stdout]
  · simp only [h1, h2, Bool.false_eq_true, if_false]
    cases hc : (cmdRun env (atStart env fs) "ffmpeg" (ffmpegArgs filePath)).2 with
    | none =>
      rw [cmdRun_err, atStart_fs] at hc
      exact absurd hc he
    | some e =>
      simp [Outcome.requests, Outcome.formFiles, Outcome.opens, Outcome.prints, requestsOf,
        formFilesOf, opensOf, printsOf, logFatal, World.log, cmdRun_trace, cmdRun_stdout,
        atStart_trace, atStart_stdout]

/-- Instance of C7 on "clip.mov" with a failing `ffmpeg`. -/
theorem utility_failure_stops_run_witness :
    (Run failingCmdEnv ["clip.mov"] [("clip.mov", "video")]).exitCode ≠ 0 ∧
      (Run failingCmdEnv ["clip.mov"] [("clip.mov", "video")]).requests = [] :=
  ⟨(utility_failure_stops_run failingCmdEnv "clip.mov" [("clip.mov", "video")]
      (Or.inr ⟨by decide, by decide, by decide⟩)).1,
   (utility_failure_stops_run failingCmdEnv "clip.mov" [("clip.mov", "video")]
      (Or.inr ⟨by decide, by decide, by decide⟩)).2.1⟩


/-- A fatal message in the log means the upload stage stopped the run: status
1, no print, no further removal, file system and standard output as the stage
found them. -/
theorem afterAcquire_fatal (env : Env) (a : String) (w : World)
    (h : (afterAcquire env a w).fatals ≠ fatalsOf w.trace) :
    (afterAcquire env a w).exitCode = 1 ∧
      (afterAcquire env a w).world.stdout = w.stdout ∧
      (afterAcquire env a w).prints = printsOf w.trace ∧
      (afterAcquire env a w).removes = removesOf w.trace ∧
      (afterAcquire env a w).execs = execsOf w.trace ∧
      (afterAcquire env a w).world.fs = w.fs := by
  rw [afterAcquire_eq] at h ⊢
  revert h
  repeat' split
  all_goals simp [Outcome.fatals, Outcome.prints, Outcome.removes, Outcome.execs, fatalsOf,
    printsOf, removesOf, execsOf, logFatal, atOpen, atRequest, atExit, World.log, osRemove,
    fmtPrint]

/-- The upload stage invokes no external program: an invocation in its trace
was there before. -/
theorem afterAcquire_exec_steps (env : Env) (a : String) (w : World) :
    ∀ t ∈ (afterAcquire env a w).world.trace, ∀ n args, t.event = .exec n args →
      t ∈ w.trace := by
  have key : ∃ extra, (afterAcquire env a w).world.trace = w.trace ++ extra ∧
      ∀ t ∈ extra, ∀ n args, t.event ≠ .exec n args := by
    rw [afterAcquire_eq]
    repeat' split
    all_goals
      simp only [logFatal, atOpen, atRequest, atExit, World.log, osRemove, fmtPrint,
        List.append_assoc]
      exact ⟨_, rfl, by simp⟩
  obtain ⟨extra, htr, hextra⟩ := key
  intro t ht n args hev
  rw [htr, List.mem_append] at ht
  rcases ht with ht | ht
  · exact ht
  · exact absurd hev (hextra t ht n args)

/-- C8. A run that logs a fatal error ends with exit code 1, has written
nothing to standard output, has printed nothing, and has performed no removal
other than the initial one of "tmp.mp3"; its final file system is the one the
invoked utility left (the one the initial `os.Remove` left when no utility
was invoked), so a file the utility created at "tmp.mp3" is still there. -/
theorem fatal_error_skips_emit_and_cleanup (env : Env) (filePath : String) (fs : FS)
    (h : (Run env [filePath] fs).fatals ≠ []) :
    (Run env [filePath] fs).exitCode = 1 ∧
      (Run env [filePath] fs).world.stdout = "" ∧
      (Run env [filePath] fs).prints = [] ∧
      (Run env [filePath] fs).removes = ["tmp.mp3"] ∧
      (∀ t ∈ (Run env [filePath] fs).world.trace, ∀ n a, t.event = .exec n a →
        (Run env [filePath] fs).world.fs = (env.cmdRun n a t.pre).fs ∧
        ∀ c, FS.read (env.cmdRun n a t.pre).fs (env.resolve "tmp.mp3") = some c →
          FS.read (Run env [filePath] fs).world.fs (env.resolve "tmp.mp3") = some c) ∧
      ((Run env [filePath] fs).execs = [] →
        (Run env [filePath] fs).world.fs = (osRemoveFS env fs "tmp.mp3").1) := by
  have hexec : ∀ (name : String) (args : List String),
      (match (cmdRun env (atStart env fs) name args).2 with
        | some e => logFatal (cmdRun env (atStart env fs) name args).1
            ("Command execution failed with error: " ++ e)
        | none => afterAcquire env "tmp.mp3" (cmdRun env (atStart env fs) name args).1).fatals ≠ [] →
      (fun o : Outcome => o.exitCode = 1 ∧ o.world.stdout = "" ∧ o.prints = [] ∧
        o.removes = ["tmp.mp3"] ∧
        (∀ t ∈ o.world.trace, ∀ n a, t.event = .exec n a →
          o.world.fs = (env.cmdRun n a t.pre).fs ∧
          ∀ c, FS.read (env.cmdRun n a t.pre).fs (env.resolve "tmp.mp3") = some c →
            FS.read o.world.fs (env.resolve "tmp.mp3") = some c) ∧
        (o.execs = [] → o.world.fs = (osRemoveFS env fs "tmp.mp3").1))
      (match (cmdRun env (atStart env fs) name args).2 with
        | some e => logFatal (cmdRun env (atStart env fs) name args).1
            ("Command execution failed with error: " ++ e)
        | none => afterAcquire env "tmp.mp3" (cmdRun env (atStart env fs) name args).1) := by
    intro name args hf
    cases he : (cmdRun env (atStart env fs) name args).2 with
    | some e =>
      simp [Outcome.prints, Outcome.removes, Outcome.execs, printsOf, removesOf, execsOf,
        logFatal, World.log, cmdRun_trace, cmdRun_stdout, cmdRun_fs, atStart_trace,
        atStart_stdout, atStart_fs]
    | none =>
      rw [he] at hf
      simp only [] at hf ⊢
      have hf2 : (afterAcquire env "tmp.mp3" (cmdRun env (atStart env fs) name args).1).fatals ≠
          fatalsOf (cmdRun env (atStart env fs) name args).1.trace := by
        simpa [fatalsOf, cmdRun_trace, atStart_trace] using hf
      obtain ⟨k1, k2, k3, k4, k5, k6⟩ := afterAcquire_fatal env "tmp.mp3" _ hf2
      refine ⟨k1, ?_, ?_, ?_, ?_, ?_⟩
      · rw [k2, cmdRun_stdout, atStart_stdout]
      · rw [k3]; simp [printsOf, cmdRun_trace, atStart_trace]
      · rw [k4]; simp [removesOf, cmdRun_trace, atStart_trace]
      · intro t ht n a hev
        have hm := afterAcquire_exec_steps env "tmp.mp3" _ t ht n a hev
        rw [cmdRun_trace, atStart_trace] at hm
        simp at hm
        rcases hm with hm | hm
        · rw [hm] at hev; simp at hev
        · rw [hm] at hev ⊢
          simp at hev
          obtain ⟨hn, ha⟩ := hev
          subst hn; subst ha
          rw [k6, cmdRun_fs, atStart_fs]
          exact ⟨rfl, fun c hc => hc⟩
      · intro hx
        rw [k5] at hx
        simp [execsOf, cmdRun_trace, atStart_trace] at hx
  revert h
  rw [Run_eq]
  by_cases h1 : strings.Contains filePath "youtube.com" = true
  · simp only [h1, if_true]
    exact hexec "yt-dlp" (ytdlpArgs filePath)
  · simp only [h1, Bool.false_eq_true, if_false]
    by_cases h2 : strings.HasSuffix filePath ".mp3" = true
    · simp only [h2, if_true]
      intro hf
      have hf2 : (afterAcquire env filePath (atStart env fs)).fatals ≠
          fatalsOf (atStart env fs).trace := by
        simpa [fatalsOf, atStart_trace] using hf
      obtain ⟨k1, k2, k3, k4, k5, k6⟩ := afterAcquire_fatal env filePath _ hf2
      refine ⟨k1, ?_, ?_, ?_, ?_, ?_⟩
      · rw [k2, atStart_stdout]
      · rw [k3]; simp [printsOf, atStart_trace]
      · rw [k4]; simp [removesOf, atStart_trace]
      · intro t ht n a hev
        have hm := afterAcquire_exec_steps env filePath _ t ht n a hev
        rw [atStart_trace] at hm
        simp at hm
        rw [hm] at hev; simp at hev
      · intro _
        rw [k6, atStart_fs]
    · simp only [h2, Bool.false_eq_true, if_false]
      exact hexec "ffmpeg" (ffmpegArgs filePath)

/-- Instance of C8 on "clip.mov" with a failing `ffmpeg`: the half-written "tmp.mp3" stays. -/
theorem fatal_error_skips_emit_and_cleanup_witness :
    (Run failingCmdEnv ["clip.mov"] [("clip.mov", "video")]).fatals ≠ [] ∧
      (Run failingCmdEnv ["clip.mov"] [("clip.mov", "video")]).exitCode = 1 ∧
      (Run failingCmdEnv ["clip.mov"] [("clip.mov", "video")]).removes = ["tmp.mp3"] ∧
      FS.read (Run failingCmdEnv ["clip.mov"] [("clip.mov", "video")]).world.fs "tmp.mp3" =
        some "half-written" :=
  ⟨by decide,
   (fatal_error_skips_emit_and_cleanup failingCmdEnv "clip.mov" [("clip.mov", "video")]
      (by decide)).1,
   (fatal_error_skips_emit_and_cleanup failingCmdEnv "clip.mov" [("clip.mov", "video")]
      (by decide)).2.2.2.1,
   by decide⟩

/-- C10, as stated, fails: when the removal of "tmp.mp3" is refused (here a
directory without write permission) the input file is still there, the open
succeeds, the file is uploaded, and the run prints the answer and ends with
status 0. -/
theorem tmp_mp3_input_uploaded_when_removal_refused :
    (Run stuckEnv ["tmp.mp3"] [("tmp.mp3", "old")]).exitCode = 0 ∧
      (Run stuckEnv ["tmp.mp3"] [("tmp.mp3", "old")]).fatals = [] ∧
      (Run stuckEnv ["tmp.mp3"] [("tmp.mp3", "old")]).requests =
        [formRequest stuckEnv "tmp.mp3" "old"] ∧
      (Run stuckEnv ["tmp.mp3"] [("tmp.mp3", "old")]).world.stdout = "hello world" := by
  decide

/-- C10, amended. On the input "tmp.mp3", for every environment and every
initial file system on which the removal of "tmp.mp3" is not refused: the
initial cleanup leaves no file at "tmp.mp3", nothing recreates it, the open of
"tmp.mp3" finds no file, and the run ends with status 1 after logging the
open error, with no request sent and nothing on standard output. -/
theorem tmp_mp3_input_is_fatal (env : Env) (fs : FS)
    (hrem : env.removeErr fs "tmp.mp3" = none) :
    Run env ["tmp.mp3"] fs =
        { world :=
            { fs := (osRemoveFS env fs "tmp.mp3").1,
              trace :=
                [{ pre := fs, event := .remove "tmp.mp3" },
                 { pre := (osRemoveFS env fs "tmp.mp3").1,
                   event := .createFormFile "audio_file" "tmp.mp3" },
                 { pre := (osRemoveFS env fs "tmp.mp3").1, event := .osOpen "tmp.mp3" },
                 { pre := (osRemoveFS env fs "tmp.mp3").1,
                   event := .logFatal
                     "Error opening file: open tmp.mp3: no such file or directory" }],
              stdout := "" },
          exitCode := 1 } ∧
      (osRemoveFS env fs "tmp.mp3").1 = FS.erase fs (env.resolve "tmp.mp3") ∧
      FS.read (osRemoveFS env fs "tmp.mp3").1 (env.resolve "tmp.mp3") = none ∧
      (∃ e, osOpen env (osRemoveFS env fs "tmp.mp3").1 "tmp.mp3" = .error e) ∧
      (Run env ["tmp.mp3"] fs).exitCode ≠ 0 ∧
      (Run env ["tmp.mp3"] fs).requests = [] ∧
      (Run env ["tmp.mp3"] fs).execs = [] ∧
      (Run env ["tmp.mp3"] fs).world.stdout = "" := by
  have hc : strings.Contains "tmp.mp3" "youtube.com" = false := by decide
  have hs : strings.HasSuffix "tmp.mp3" ".mp3" = true := by decide
  have habs := osRemoveFS_absent env fs "tmp.mp3" hrem
  have hmsg : "open " ++ "tmp.mp3" ++ ": no such file or directory" =
      "open tmp.mp3: no such file or directory" := by decide
  have ho : osOpen env (osRemoveFS env fs "tmp.mp3").1 "tmp.mp3" =
      .error "open tmp.mp3: no such file or directory" := by
    simp only [osOpen, habs, hmsg]
  have hmsg2 : "Error opening file: " ++ "open tmp.mp3: no such file or directory" =
      "Error opening file: open tmp.mp3: no such file or directory" := by decide
  have key : Run env ["tmp.mp3"] fs =
      { world :=
          { fs := (osRemoveFS env fs "tmp.mp3").1,
            trace :=
              [{ pre := fs, event := .remove "tmp.mp3" },
               { pre := (osRemoveFS env fs "tmp.mp3").1,
                 event := .createFormFile "audio_file" "tmp.mp3" },
               { pre := (osRemoveFS env fs "tmp.mp3").1, event := .osOpen "tmp.mp3" },
               { pre := (osRemoveFS env fs "tmp.mp3").1,
                 event := .logFatal
                   "Error opening file: open tmp.mp3: no such file or directory" }],
            stdout := "" },
        exitCode := 1 } := by
    rw [Run_eq]
    simp only [hc, hs, Bool.false_eq_true, if_false, if_true]
    rw [afterAcquire_eq, atStart_fs, ho]
    simp only [hmsg2]
    rfl
  refine ⟨key, osRemoveFS_ok env fs "tmp.mp3" hrem, habs, ⟨_, ho⟩, ?_, ?_, ?_, ?_⟩
  · rw [key]; simp
  · rw [key]; simp [Outcome.requests, requestsOf]
  · rw [key]; simp [Outcome.execs, execsOf]
  · rw [key]

/-- Instance of C10 (amended) with a file at "tmp.mp3" that can be removed. -/
theorem tmp_mp3_input_is_fatal_witness :
    okEnv.removeErr [("tmp.mp3", "old")] "tmp.mp3" = none ∧
      (Run okEnv ["tmp.mp3"] [("tmp.mp3", "old")]).exitCode ≠ 0 ∧
      (Run okEnv ["tmp.mp3"] [("tmp.mp3", "old")]).requests = [] ∧
      (Run okEnv ["tmp.mp3"] [("tmp.mp3", "old")]).world.stdout = "" :=
  ⟨rfl,
   (tmp_mp3_input_is_fatal okEnv [("tmp.mp3", "old")] rfl).2.2.2.2.1,
   (tmp_mp3_input_is_fatal okEnv [("tmp.mp3", "old")] rfl).2.2.2.2.2.1,
   (tmp_mp3_input_is_fatal okEnv [("tmp.mp3", "old")] rfl).2.2.2.2.2.2.2⟩

/-! ## The request -/

/-- The upload stage opens one file, the audio file, on the file system the
stage starts from: an open in its trace is that one or was there before. -/
theorem afterAcquire_open_steps (env : Env) (a : String) (w : World) :
    ∀ t ∈ (afterAcquire env a w).world.trace, ∀ q, t.event = .osOpen q →
      t ∈ w.trace ∨ (q = a ∧ t.pre = w.fs) := by
  have key : ∃ extra, (afterAcquire env a w).world.trace =
      w.trace ++ { pre := w.fs, event := .createFormFile "audio_file" a } ::
        { pre := w.fs, event := .osOpen a } :: extra ∧
      ∀ t ∈ extra, ∀ q, t.event ≠ .osOpen q := by
    rw [afterAcquire_eq]
    repeat' split
    all_goals
      simp only [logFatal, atOpen, atRequest, atExit, World.log, osRemove, fmtPrint,
        List.append_assoc, List.singleton_append, List.cons_append, List.nil_append]
      exact ⟨_, rfl, by simp⟩
  obtain ⟨extra, htr, hextra⟩ := key
  intro t ht q hev
  rw [htr] at ht
  simp only [List.mem_append, List.mem_cons] at ht
  rcases ht with ht | ht | ht | ht
  · exact Or.inl ht
  · rw [ht] at hev; simp at hev
  · rw [ht] at hev ⊢
    simp at hev
    exact Or.inr ⟨hev.symm, rfl⟩
  · exact absurd hev (hextra t ht q)

/-- C9, as stated, fails: the run on "missing.mp3" with no such file reaches
the upload stage (it creates the form file and tries to open the audio file)
and issues no HTTP request. -/
theorem upload_stage_without_request :
    (Run okEnv ["missing.mp3"] []).formFiles = ["missing.mp3"] ∧
      (Run okEnv ["missing.mp3"] []).opens = ["missing.mp3"] ∧
      (Run okEnv ["missing.mp3"] []).requests = [] := by
  decide

/-- C9, amended. Every run in which the audio file `a` is opened with
contents `c`, copied, and the request constructed without error issues exactly
one HTTP request: a POST to "http://0.0.0.0:9000/asr" whose body is a closed
multipart form with exactly one part, the file field "audio_file" with file
name `a` and contents `c`, and whose only header is Content-Type, set to the
form-data content type of that body (its boundary is the writer's). -/
theorem upload_sends_one_form_post (env : Env) (filePath : String) (fs : FS)
    (t : Step) (a c : String)
    (ht : t ∈ (Run env [filePath] fs).world.trace) (hev : t.event = .osOpen a)
    (hopen : osOpen env t.pre a = .ok c) (hcopy : env.copyErr a = none)
    (hnew : env.newRequestErr "POST" "http://0.0.0.0:9000/asr" = none) :
    ∃ req, (Run env [filePath] fs).requests = [req] ∧
      req.method = "POST" ∧
      req.url = "http://0.0.0.0:9000/asr" ∧
      req.body.boundary = env.boundary ∧
      req.body.closed = true ∧
      req.body.parts = [{ fieldname := "audio_file", filename := a,
                          contentType := "application/octet-stream", content := c }] ∧
      req.header = [("Content-Type", req.body.FormDataContentType)] ∧
      req.getHeader "Content-Type" =
        some ("multipart/form-data; boundary=" ++
          (if strings.ContainsAny env.boundary "()<>@,;:\\\"/[]?= "
            then "\"" ++ env.boundary ++ "\"" else env.boundary)) := by
  have hstage : ∀ (a0 : String) (w : World), requestsOf w.trace = [] →
      (∀ s ∈ w.trace, ∀ q, s.event ≠ .osOpen q) →
      t ∈ (afterAcquire env a0 w).world.trace →
      (afterAcquire env a0 w).requests = [formRequest env a c] := by
    intro a0 w hw hno ht0
    rcases afterAcquire_open_steps env a0 w t ht0 a hev with hm | ⟨ha, hpre⟩
    · exact absurd hev (hno t hm a)
    · subst ha
      rw [hpre] at hopen
      rw [afterAcquire_requests_ok env a c w hopen hcopy hnew, hw]
      rfl
  have hfin : (Run env [filePath] fs).requests = [formRequest env a c] := by
    rw [Run_eq] at ht ⊢
    by_cases h1 : strings.Contains filePath "youtube.com" = true
    · simp only [h1, if_true] at ht ⊢
      cases he : (cmdRun env (atStart env fs) "yt-dlp" (ytdlpArgs filePath)).2 with
      | some e =>
        rw [he] at ht
        simp [logFatal, World.log, cmdRun_trace, atStart_trace] at ht
        rcases ht with ht | ht | ht <;> simp [ht] at hev
      | none =>
        rw [he] at ht
        simp only [] at ht ⊢
        exact hstage _ _ (by simp [requestsOf, cmdRun_trace, atStart_trace])
          (by simp [cmdRun_trace, atStart_trace]) ht
    · simp only [h1, Bool.false_eq_true, if_false] at ht ⊢
      by_cases h2 : strings.HasSuffix filePath ".mp3" = true
      · simp only [h2, if_true] at ht ⊢
        exact hstage _ _ (by simp [requestsOf, atStart_trace]) (by simp [atStart_trace]) ht
      · simp only [h2, Bool.false_eq_true, if_false] at ht ⊢
        cases he : (cmdRun env (atStart env fs) "ffmpeg" (ffmpegArgs filePath)).2 with
        | some e =>
          rw [he] at ht
          simp [logFatal, World.log, cmdRun_trace, atStart_trace] at ht
          rcases ht with ht | ht | ht <;> simp [ht] at hev
        | none =>
          rw [he] at ht
          simp only [] at ht ⊢
          exact hstage _ _ (by simp [requestsOf, cmdRun_trace, atStart_trace])
            (by simp [cmdRun_trace, atStart_trace]) ht
  refine ⟨formRequest env a c, hfin, rfl, rfl, rfl, rfl, rfl, rfl, ?_⟩
  simp [Request.getHeader, formRequest, Writer.FormDataContentType, formBody]

/-- Instance of C9 (amended) on "speech.mp3" with the file present. -/
theorem upload_sends_one_form_post_witness :
    ∃ req, (Run okEnv ["speech.mp3"] [("speech.mp3", "data")]).requests = [req] ∧
      req.method = "POST" ∧
      req.url = "http://0.0.0.0:9000/asr" ∧
      req.body.parts = [{ fieldname := "audio_file", filename := "speech.mp3",
                          contentType := "application/octet-stream", content := "data" }] :=
  match upload_sends_one_form_post okEnv "speech.mp3" [("speech.mp3", "data")]
      { pre := [("speech.mp3", "data")], event := .osOpen "speech.mp3" } "speech.mp3" "data"
      (by decide) rfl rfl rfl rfl with
  | ⟨req, h1, h2, h3, _, _, h6, _⟩ => ⟨req, h1, h2, h3, h6⟩

end Scribe
